import Mathlib

set_option maxRecDepth 10000

/-!
# Verification of the Bash.ai response-protocol core

A shallow embedding of the response-protocol parser, the command executor,
the command debug loop and the action dispatcher of `src/bashai.py`
(`_parse_ai_response`, `_execute_command`, `_debug_command_error`,
`_run_code_file` dependency handling, and the dispatch section of
`_interactive_mode`), together with proofs about them.

Python strings are modelled as `List Char`.  Python's `re` searches with
lazy groups over literal-delimited patterns are modelled by first-occurrence
substring searches, which coincide with the leftmost-match/lazy-group
semantics for the patterns used by the source (each pattern is a sequence of
literal separators with `(.*?)` groups between them, so the leftmost match
starts at the first occurrence of the opening literal that can be completed,
and each lazy group ends at the first position from which the rest of the
pattern matches).  `str.strip`, `str.lower` and the `\s` class are modelled
on their ASCII behaviour, which is documented at each definition.
-/

namespace BashAI

/-- Characters of a Lean string literal; used to write down the Python string
literals from the source. -/
def cs (s : String) : List Char := s.data

/-- ASCII whitespace, the characters stripped by Python's `str.strip()` and
matched by `\s` (restricted to ASCII; the source only ever strips/splits
protocol text where non-ASCII whitespace plays no role). -/
def pySpace (c : Char) : Bool :=
  c = ' ' || c = '\t' || c = '\n' || c = '\r' || c = '\x0b' || c = '\x0c'

/-- Leading-whitespace removal: Python `str.lstrip()`, also the effect of a
greedy `\s*` followed by a non-whitespace literal in a regex. -/
def pyLStrip (l : List Char) : List Char := l.dropWhile pySpace

/-- Python `str.strip()`. -/
def pyStrip (l : List Char) : List Char :=
  ((l.dropWhile pySpace).reverse.dropWhile pySpace).reverse

/-- Python `str.lower()` on a single character, restricted to ASCII: the
uppercase letters `A`–`Z` (code points 65–90) map to `a`–`z`; every other
character is unchanged.  (No Unicode lowercase mapping produces an ASCII
uppercase letter, so this restriction is conservative for the blocklist
facts proved below.) -/
def lowerChar (c : Char) : Char :=
  if 65 ≤ c.toNat ∧ c.toNat ≤ 90 then Char.ofNat (c.toNat + 32) else c

/-- Python `str.lower()`. -/
def pyLower (l : List Char) : List Char := l.map lowerChar

/-- Index of the first suffix of `s` satisfying `p` (the empty final suffix
included), or `none`.  This is the scanning loop of `re`'s `search`: try a
match at every position, left to right. -/
def firstIdx (p : List Char → Bool) : List Char → Option Nat
  | [] => if p [] then some 0 else none
  | s@(_ :: rest) => if p s then some 0 else (firstIdx p rest).map (· + 1)

/-- Index of the first occurrence of `pat` in `s` (Python `str.find` /
anchoring a regex at its leading literal). -/
def strFind (pat s : List Char) : Option Nat :=
  firstIdx (fun t => pat.isPrefixOf t) s

/-- Python's `pat in s` substring test. -/
def containsSub (pat s : List Char) : Bool := (strFind pat s).isSome

/-- Search for the regex `opn(.*?)cls` (with `re.DOTALL`) in `s`.
Returns the group's content and the match's start and end offsets.
The leftmost match of such a pattern starts at the first occurrence of
`opn` (if that occurrence has no completing `cls` after it, neither does
any later one), and the lazy group ends at the first occurrence of `cls`
at or after the end of `opn`. -/
def searchTag (opn cls s : List Char) : Option (List Char × Nat × Nat) :=
  match strFind opn s with
  | none => none
  | some i =>
    let t := s.drop (i + opn.length)
    match strFind cls t with
    | none => none
    | some j => some (t.take j, i, i + opn.length + j + cls.length)

/-- Search for the regex `opn(.*?)mid(.*?)cls` (with `re.DOTALL`) in `s`,
where `opn`, `mid`, `cls` are literals.  Backtracking over the first lazy
group makes it end at the first occurrence of the full literal `mid`;
the second group ends at the first occurrence of `cls` after that. -/
def searchTag2 (opn mid cls s : List Char) :
    Option (List Char × List Char × Nat × Nat) :=
  match strFind opn s with
  | none => none
  | some i =>
    let t := s.drop (i + opn.length)
    match strFind mid t with
    | none => none
    | some j =>
      let u := t.drop (j + mid.length)
      match strFind cls u with
      | none => none
      | some k =>
        some (t.take j, u.take k,
          i, i + opn.length + j + mid.length + k + cls.length)

/-- `pattern.sub('', s, 1)` followed by `.strip()`: delete the span
`[a, b)` of the (unique, leftmost) match and strip the result. -/
def removeSpan (s : List Char) (a b : Nat) : List Char :=
  pyStrip (s.take a ++ s.drop b)

/-- Does `s` start with the separator `cls` followed by `\s*` and then the
literal `nxt`?  (`\s*` is greedy but `nxt` starts with a non-whitespace
character, so the run of whitespace consumed is exactly maximal.) -/
def sepHere (cls nxt s : List Char) : Bool :=
  cls.isPrefixOf s && nxt.isPrefixOf (pyLStrip (s.drop cls.length))

/-- First position in `s` where a lazy group ending in `cls\s*nxt` can stop:
the lazy group extends to the first index from which the remainder of the
pattern matches. -/
def findSep (cls nxt s : List Char) : Option Nat :=
  firstIdx (sepHere cls nxt) s

/-- One attempt of the inner per-file regex of `_parse_ai_response`,

    `<file>\s*<filename>(.*?)</filename>\s*<code>(.*?)</code>\s*</file>`

anchored at the start of `s`.  On success returns the two (unstripped)
groups and the text remaining after the match. -/
def matchFileEntry (s : List Char) : Option (List Char × List Char × List Char) :=
  if (cs "<file>").isPrefixOf s then
    let t1 := pyLStrip (s.drop 6)
    if (cs "<filename>").isPrefixOf t1 then
      let t2 := t1.drop 10
      match findSep (cs "</filename>") (cs "<code>") t2 with
      | none => none
      | some j =>
        let t3 := (pyLStrip (t2.drop (j + 11))).drop 6
        match findSep (cs "</code>") (cs "</file>") t3 with
        | none => none
        | some k =>
          some (t2.take j, t3.take k, (pyLStrip (t3.drop (k + 7))).drop 7)
    else none
  else none

/-- `finditer` of the per-file pattern: scan left to right, at each position
try a match; on success emit the groups and continue after the match, on
failure advance one character.  `fuel` bounds the number of scanning steps;
every step either advances one character or consumes a (nonempty) match, so
`s.length` steps always suffice (see `findFileEntries`). -/
def findFileEntriesF : Nat → List Char → List (List Char × List Char)
  | 0, _ => []
  | fuel + 1, s =>
    match matchFileEntry s with
    | some (name, code, remaining) => (name, code) :: findFileEntriesF fuel remaining
    | none =>
      match s with
      | [] => []
      | _ :: rest => findFileEntriesF fuel rest

/-- All matches of the per-file pattern in document order. -/
def findFileEntries (s : List Char) : List (List Char × List Char) :=
  findFileEntriesF s.length s

/-- The tag literals of `_parse_ai_response`. -/
def depsOpen : List Char := cs "<dependencies>"

def depsClose : List Char := cs "</dependencies>"

def filesOpen : List Char := cs "<files>"

def filesClose : List Char := cs "</files>"

def editedOpen : List Char := cs "<edited_filename>"

def editedMid : List Char := cs "</edited_filename><edited_code>"

def editedClose : List Char := cs "</edited_code>"

def fnOpen : List Char := cs "<filename>"

def fnMid : List Char := cs "</filename><code>"

def fnClose : List Char := cs "</code>"

def execOpen : List Char := cs "<execute>"

def execClose : List Char := cs "</execute>"

/-- The dictionary returned by `_parse_ai_response` (`command`, `new_files`,
`edited_file`, `dependencies`, `explanation`).  A `new_files` entry is a
`(filename, code)` pair. -/
structure Parsed where
  command : Option (List Char)
  new_files : List (List Char × List Char)
  edited_file : Option (List Char × List Char)
  dependencies : Option (List Char)
  explanation : Option (List Char)
deriving Repr, DecidableEq

/-- Step 1 of `_parse_ai_response`: extract `<dependencies>…</dependencies>`,
strip the group, remove the matched span, strip the remainder. -/
def depsStep (s : List Char) : Option (List Char) × List Char :=
  match searchTag depsOpen depsClose s with
  | some (g, a, b) => (some (pyStrip g), removeSpan s a b)
  | none => (none, s)

/-- Step 2: extract the `<files>…</files>` block, collect every `<file>`
entry inside it (both groups stripped), remove the matched span. -/
def filesStep (s : List Char) : List (List Char × List Char) × List Char :=
  match searchTag filesOpen filesClose s with
  | some (g, a, b) =>
    ((findFileEntries g).map (fun p => (pyStrip p.1, pyStrip p.2)), removeSpan s a b)
  | none => ([], s)

/-- Step 3: extract `<edited_filename>…</edited_filename><edited_code>…</edited_code>`
(both groups stripped), remove the matched span.  The source runs this step
unconditionally, whether or not step 2 matched. -/
def editedStep (s : List Char) : Option (List Char × List Char) × List Char :=
  match searchTag2 editedOpen editedMid editedClose s with
  | some (g1, g2, a, b) => (some (pyStrip g1, pyStrip g2), removeSpan s a b)
  | none => (none, s)

/-- Step 4: extract `<filename>…</filename><code>…</code>` (both groups
stripped), remove the matched span.  The caller only runs this step when
`new_files` is still empty and no edited file was found. -/
def singleStep (s : List Char) : Option (List Char × List Char) × List Char :=
  match searchTag2 fnOpen fnMid fnClose s with
  | some (g1, g2, a, b) => (some (pyStrip g1, pyStrip g2), removeSpan s a b)
  | none => (none, s)

/-- Step 5: extract `<execute>…</execute>` (group stripped), remove the
matched span. -/
def execStep (s : List Char) : Option (List Char) × List Char :=
  match searchTag execOpen execClose s with
  | some (g, a, b) => (some (pyStrip g), removeSpan s a b)
  | none => (none, s)

/-- Steps 2–6 of `_parse_ai_response`, starting from the text remaining
after dependency extraction.  Step 6: whatever text remains (it is already
stripped) is the explanation, with Python's truthiness turning `""` into
`None`. -/
def parseFrom (r1 : List Char) : Parsed :=
  let fs := filesStep r1
  let ed := editedStep fs.2
  let sg := if fs.1.isEmpty && ed.1.isNone then singleStep ed.2 else (none, ed.2)
  { command := (execStep sg.2).1
    new_files := fs.1 ++ (match sg.1 with | some p => [p] | none => [])
    edited_file := ed.1
    dependencies := none
    explanation :=
      if (execStep sg.2).2.isEmpty then none else some (execStep sg.2).2 }

/-- `_parse_ai_response`: strip the raw response, extract dependencies,
then run steps 2–6 on the remainder. -/
def parseAiResponse (response : List Char) : Parsed :=
  let d := depsStep (pyStrip response)
  { parseFrom d.2 with dependencies := d.1 }

/-! ## Command executor and command debug loop

`_execute_command` and `_debug_command_error` call each other: a failing
command offers AI debugging, an AI-suggested fix command is run through
`_execute_command` again, whose own failure prompt re-enters
`_debug_command_error`.  The mutual recursion is modelled as a single
function `engine` over a call descriptor, structurally recursive on a
recursion-depth budget `fuel` (Python's stack plays that role); a result of
`none` means the budget was exhausted, i.e. the source would still be
recursing at that depth.  External collaborators (the OS shell, the AI
query service, the interactive user) are oracles in `Env`; each run also
returns the trace of shell spawns and AI round-trips it performed. -/

/-- The fixed safety blocklist of `_execute_command`. -/
def dangerousCommands : List (List Char) :=
  [cs "rm -rf /", cs "del /f /s /q C:\\", cs "format", cs "fdisk", cs "mkfs"]

/-- ANSI escapes used inside returned message strings (class `Colors`). -/
def colorRed : List Char := cs "\x1b[91m"

def colorYellow : List Char := cs "\x1b[93m"

def colorEnd : List Char := cs "\x1b[0m"

/-- `"Command blocked by safe mode."` (red), returned on a blocklist hit. -/
def blockedMsg : List Char := colorRed ++ cs "Command blocked by safe mode." ++ colorEnd

/-- The fixed sentinel returned when a succeeding command printed nothing. -/
def okSentinel : List Char := cs "✓ Command completed successfully"

/-- The fixed sentinel used as error text when a failing command printed
nothing on stderr. -/
def failSentinel (rc : Int) : List Char :=
  cs ("Command failed with exit code " ++ toString rc)

/-- Returned by `_execute_command` when the user declines AI debugging. -/
def debugSkipMsg : List Char :=
  colorRed ++ cs "Command failed and debugging skipped." ++ colorEnd

/-- Returned when the user declines to execute the AI-suggested command. -/
def debugSkippedByUserMsg : List Char :=
  colorYellow ++ cs "Command debugging skipped by user." ++ colorEnd

/-- Returned when the user declines another AI debugging pass. -/
def debugAbortedMsg : List Char :=
  colorYellow ++ cs "Command debugging aborted by user." ++ colorEnd

/-- Returned when the AI offered no command fix on the final attempt. -/
def couldNotDebugMsg : List Char :=
  colorRed ++ cs "Command failed and AI could not debug." ++ colorEnd

/-- Returned when the attempt loop falls through (every AI query failed). -/
def debugFallbackMsg : List Char :=
  colorRed ++ cs "Command failed and AI could not debug after multiple attempts." ++ colorEnd

/-- The `input()` call sites of the executor/debug code. -/
inductive PromptSite where
  /-- `"Attempt to debug this command with AI? [y/N]"` in `_execute_command`. -/
  | debugChoice
  /-- `"Execute this suggested command? [y/N]"` in `_debug_command_error`. -/
  | confirmExec
  /-- `"Attempt another AI debugging pass? [y/N]"` in `_debug_command_error`. -/
  | retryChoice
deriving Repr, DecidableEq

/-- External collaborators of the executor/debug code.  `shell cmd` is the
completed `subprocess.run` (return code, stdout, stderr); `aiOk`/`aiResponse`
model an AI query service that always answers the same way (the mock used by
the spec's testable properties); `answer` is the interactive user. -/
structure Env where
  safeMode : Bool
  shell : List Char → Int × List Char × List Char
  aiOk : Bool
  aiResponse : List Char
  answer : PromptSite → List Char

/-- Observable side effects of one executor/debug run. -/
inductive Ev where
  /-- `subprocess.run` was invoked on `cmd`. -/
  | spawn (cmd : List Char)
  /-- one `_query_ai` round-trip. -/
  | ai
deriving Repr, DecidableEq

/-- Call descriptor for the mutually recursive pair. -/
inductive Call where
  | exec (cmd : List Char)
  | debug (command error : List Char)
deriving Repr, DecidableEq

/-- Python truthiness of a parsed `command` field
(`if parsed_response['command']:`): `None` and the empty string are both
falsy. -/
def truthyCommand (p : Parsed) : Option (List Char) :=
  match p.command with
  | some sc => if sc.isEmpty then none else some sc
  | none => none

/-- `_execute_command` (`.exec`) and `_debug_command_error` (`.debug`).

`.exec cmd`: blocklist check (lower-cased command against the fixed list,
only when safe mode is on) before any spawn; then spawn; exit code 0 yields
stripped stdout or the success sentinel with `succeeded = true`; a non-zero
exit computes the error text (stripped stderr or the exit-code sentinel),
offers AI debugging, and either enters `.debug` or returns the fixed
"debugging skipped" message with `succeeded = false`.

`.debug command error`: `DEBUG_ATTEMPTS = 2` loop, unrolled.  Each attempt
is one AI round-trip; a failed query continues the loop; a parsed command
(truthy, i.e. non-empty, per `if parsed_debug_response['command']:`) is
offered for confirmation and, if accepted, run through `.exec` (returning
that run's result — the source does not loop after it); with no truthy
command the first attempt asks whether to retry and the second returns the
exhaustion message; falling out of the loop returns the fallback message. -/
def engine (env : Env) : Nat → Call → Option (List Char × Bool) × List Ev
  | 0, _ => (none, [])
  | fuel + 1, .exec cmd =>
    if env.safeMode && dangerousCommands.any (fun d => containsSub d (pyLower cmd)) then
      (some (blockedMsg, false), [])
    else
      let r := env.shell cmd
      if r.1 = 0 then
        (some (if r.2.1.isEmpty then okSentinel else pyStrip r.2.1, true), [.spawn cmd])
      else
        let error := if r.2.2.isEmpty then failSentinel r.1 else pyStrip r.2.2
        if pyLower (pyStrip (env.answer .debugChoice)) = cs "y" then
          let d := engine env fuel (.debug cmd error)
          (d.1, .spawn cmd :: d.2)
        else
          (some (debugSkipMsg, false), [.spawn cmd])
  | fuel + 1, .debug _ _ =>
    let attempt2 : List Ev → Option (List Char × Bool) × List Ev := fun pre =>
      if !env.aiOk then (some (debugFallbackMsg, false), pre ++ [.ai])
      else
        match truthyCommand (parseAiResponse env.aiResponse) with
        | some sc =>
          if pyLower (pyStrip (env.answer .confirmExec)) = cs "y" then
            let d := engine env fuel (.exec sc)
            (d.1, pre ++ .ai :: d.2)
          else (some (debugSkippedByUserMsg, false), pre ++ [.ai])
        | none => (some (couldNotDebugMsg, false), pre ++ [.ai])
    if !env.aiOk then attempt2 [.ai]
    else
      match truthyCommand (parseAiResponse env.aiResponse) with
      | some sc =>
        if pyLower (pyStrip (env.answer .confirmExec)) = cs "y" then
          let d := engine env fuel (.exec sc)
          (d.1, .ai :: d.2)
        else (some (debugSkippedByUserMsg, false), [.ai])
      | none =>
        if pyLower (pyStrip (env.answer .retryChoice)) = cs "y" then attempt2 [.ai]
        else (some (debugAbortedMsg, false), [.ai])

/-- `_execute_command cmd` with recursion-depth budget `fuel`. -/
def execCmd (env : Env) (fuel : Nat) (cmd : List Char) :
    Option (List Char × Bool) × List Ev :=
  engine env fuel (.exec cmd)

/-- `_debug_command_error command error` with recursion-depth budget `fuel`. -/
def debugCommandError (env : Env) (fuel : Nat) (command error : List Char) :
    Option (List Char × Bool) × List Ev :=
  engine env fuel (.debug command error)

/-- Is an event an AI round-trip? -/
def isAiEv : Ev → Bool
  | .ai => true
  | _ => false

/-- Is an event a shell spawn? -/
def isSpawnEv : Ev → Bool
  | .spawn _ => true
  | _ => false

/-- Number of AI round-trips in a trace. -/
def countAi (tr : List Ev) : Nat := (tr.filter isAiEv).length

/-- Number of shell spawns in a trace. -/
def countSpawn (tr : List Ev) : Nat := (tr.filter isSpawnEv).length

/-! ## Action dispatcher

The dispatch section of `_interactive_mode` (the processing of one parsed
AI response, lines following `parsed = self._parse_ai_response(...)`),
together with `_run_code_file` and `_debug_code_error`.  Those two call
each other: a failed streaming run offers AI debugging, and an accepted
corrected file or edit is re-run through `_run_code_file` with the debug
response's **own** `dependencies` command — so the proceed-despite-failure
question of the dependency preamble is reachable from inside a dispatch.
The mutual recursion is modelled like the executor's, as one function
`rcEngine` over a call descriptor, structurally recursive on a
recursion-depth budget (`none` = the source would still be recursing at
that depth).  External effects stay oracles in `DEnv`: the success flag of
`_execute_command` on the install command (`installOk`) and on a fix
command (`execOk`), file creation (`createOk`) and the edit write
(`writeOk`), the streaming run's exit (`runExit`: `some rc`, or `none` for
the halted/unhandled branch), and the debug AI query (`aiOk`/`aiResponse`,
a constant mock as in the executor model). -/

/-- The `input()` call sites of the dispatcher code. -/
inductive DPrompt where
  /-- `"Install these dependencies? [Y/n]"` in `_interactive_mode`. -/
  | installDeps
  /-- `"Install these dependencies before running '…'? [Y/n]"` in `_run_code_file`. -/
  | installDepsBeforeRun
  /-- `"Proceed to run code despite dependency installation failure? [y/N]"`. -/
  | proceedDespiteDepFailure
  /-- `"Save '…'? [Y/n]"` in `_interactive_mode`. -/
  | saveFile (name : List Char)
  /-- `"Run '…'? [y/N]"` in `_interactive_mode`. -/
  | runFile (name : List Char)
  /-- `"Execute command? … [Y/n]"` in `_interactive_mode`. -/
  | execConfirm
  /-- `"Overwrite '…' with this new content? [Y/n]"` in `_apply_file_edit`. -/
  | overwriteFile (name : List Char)
  /-- `"Attempt to debug with AI? [y/N]"` in `_run_code_file`. -/
  | debugRunFailure
  /-- `"Execute this fix? [y/N]"` in `_debug_code_error`. -/
  | confirmFix
  /-- `"Attempt to re-run '…' after applying fix? [y/N]"` in `_debug_code_error`. -/
  | rerunAfterFix (name : List Char)
  /-- `"Save corrected code to file? [y/N]"` in `_debug_code_error`. -/
  | saveCorrected (name : List Char)
  /-- `"Attempt to re-run '…' with corrected code? [y/N]"` in `_debug_code_error`. -/
  | rerunCorrected (name : List Char)
  /-- `"Attempt another AI debugging pass? [y/N]"` in `_debug_code_error`. -/
  | retryCodeDebug
deriving Repr, DecidableEq

/-- Observable steps of one dispatch. -/
inductive DEv where
  | askedInstall
  | ranInstall (cmd : List Char)
  | depInstalled
  | depFailedProceeding
  | depSkipped
  | askedInstallBeforeRun
  | askedProceedDespiteFailure
  | runAborted
  | askedSave (name : List Char)
  | savedFile (name : List Char)
  | saveFailed (name : List Char)
  | saveSkipped (name : List Char)
  | askedRun (name : List Char)
  | ranFile (name : List Char)
  | runDeclined (name : List Char)
  | notRunnable (name : List Char)
  | notScriptType (name : List Char)
  | askedOverwrite (name : List Char)
  | overwrote (name : List Char)
  | overwriteFailed (name : List Char)
  | overwriteSkipped (name : List Char)
  | askedExec
  | executedCmd (cmd : List Char) (ok : Bool)
  | execSkipped
  | printedExplanation (text : List Char)
  | askedDebugRun
  | debugRunSkipped
  | aiQuery
  | askedConfirmFix
  | fixSkipped
  | executedFix (cmd : List Char) (ok : Bool)
  | askedRerun (name : List Char)
  | rerunSkipped (name : List Char)
  | askedSaveCorrected (name : List Char)
  | mismatchedFix (suggested debugged : List Char)
  | askedRetryDebug
  | debugAborted
  | debugExhausted
deriving Repr, DecidableEq

/-- External collaborators of the dispatcher (see the section comment). -/
structure DEnv where
  answer : DPrompt → List Char
  installOk : List Char → Bool
  createOk : List Char → Bool
  writeOk : List Char → Bool
  runExit : List Char → Option Int
  execOk : List Char → Bool
  aiOk : Bool
  aiResponse : List Char
  autoExecute : Bool

/-- The `runners` table of `_run_code_file`. -/
def runners : List (List Char × List Char) :=
  [(cs ".py", cs "python"), (cs ".js", cs "node"), (cs ".sh", cs "bash"),
   (cs ".ps1", cs "powershell.exe -ExecutionPolicy Bypass -File")]

/-- `os.path.splitext(filename)[1]` for a plain filename (no directory
separators): the suffix starting at the last `.`, empty when there is no
dot or the only dot is the leading character. -/
def extOf (l : List Char) : List Char :=
  let after := l.reverse.takeWhile (fun c => c != '.')
  if after.length + 2 ≤ l.length then '.' :: after.reverse else []

/-- `filename.lower().endswith(('.py', '.js', '.sh', '.ps1'))`
(the run-offer test of `_interactive_mode`). -/
def isRunnableName (name : List Char) : Bool :=
  [cs ".py", cs ".js", cs ".sh", cs ".ps1"].any (fun e => e.isSuffixOf (pyLower name))

/-- `_apply_file_edit`: preview, confirm, overwrite. -/
def applyFileEdit (env : DEnv) (name : List Char) : Bool × List DEv :=
  if pyLower (pyStrip (env.answer (.overwriteFile name))) ≠ cs "n" then
    if env.writeOk name then (true, [DEv.askedOverwrite name, DEv.overwrote name])
    else (false, [DEv.askedOverwrite name, DEv.overwriteFailed name])
  else (false, [DEv.askedOverwrite name, DEv.overwriteSkipped name])

/-- Call descriptor for the mutually recursive run/debug pair. -/
inductive RCall where
  | run (filename code : List Char) (depsCmd : Option (List Char))
  | debugCode (filename code : List Char)
deriving Repr, DecidableEq

/-- `_run_code_file` (`.run`) and `_debug_code_error` (`.debugCode`).

`.run filename code depsCmd`: resolve the runner from the (lower-cased)
extension — an unknown extension returns `False` before any dependency
handling; when a truthy (non-empty) dependency command is present, offer
installation, and on a failed install surface the failure and ask whether
to proceed anyway, aborting on decline; then the streaming run: exit 0
returns `True`; a non-zero exit offers AI debugging (entering `.debugCode`
if accepted); the halted/unhandled branch returns `False`.

`.debugCode filename code`: `DEBUG_ATTEMPTS = 2` loop, unrolled.  Each
attempt is one AI round-trip, parsed with the protocol parser.  A truthy
parsed command is a fix offered for confirmation, executed through
`_execute_command` (oracle `execOk`); on success an accepted re-run
re-enters `.run` with **no** dependency command.  Else a single corrected
file (or an edited file) with the debugged file's (lower-cased) name is
offered for saving, and an accepted re-run re-enters `.run` with the debug
response's **own** `dependencies` command; a name mismatch ends with
`False`.  Else the explanation path: the first attempt asks whether to
retry, the second reports exhaustion; a failed re-run falls through to the
next attempt, and falling out of the loop returns `False`. -/
def rcEngine (env : DEnv) : Nat → RCall → Option Bool × List DEv
  | 0, _ => (none, [])
  | fuel + 1, .run filename code depsCmd =>
    match runners.lookup (pyLower (extOf filename)) with
    | none => (some false, [DEv.notRunnable filename])
    | some _ =>
      let pre : Bool × List DEv :=
        match depsCmd with
        | none => (true, [])
        | some d =>
          if d.isEmpty then (true, [])
          else if pyLower (pyStrip (env.answer .installDepsBeforeRun)) ≠ cs "n" then
            if env.installOk d then
              (true, [DEv.askedInstallBeforeRun, DEv.ranInstall d, DEv.depInstalled])
            else if pyLower (pyStrip (env.answer .proceedDespiteDepFailure)) = cs "y" then
              (true, [DEv.askedInstallBeforeRun, DEv.ranInstall d,
                DEv.askedProceedDespiteFailure])
            else
              (false, [DEv.askedInstallBeforeRun, DEv.ranInstall d,
                DEv.askedProceedDespiteFailure, DEv.runAborted])
          else (true, [DEv.askedInstallBeforeRun, DEv.depSkipped])
      if pre.1 then
        let rest : Option Bool × List DEv :=
          match env.runExit filename with
          | some rc =>
            if rc = 0 then (some true, [DEv.ranFile filename])
            else if pyLower (pyStrip (env.answer .debugRunFailure)) = cs "y" then
              let d := rcEngine env fuel (.debugCode filename code)
              (d.1, DEv.ranFile filename :: DEv.askedDebugRun :: d.2)
            else (some false, [DEv.ranFile filename, DEv.askedDebugRun, DEv.debugRunSkipped])
          | none => (some false, [DEv.ranFile filename])
        (rest.1, pre.2 ++ rest.2)
      else (some false, pre.2)
  | fuel + 1, .debugCode filename code =>
    let parsed := parseAiResponse env.aiResponse
    -- one attempt of the loop; `isLast` selects the retry offer versus the
    -- exhaustion report, `next` performs the remainder of the loop
    let attempt : Bool → (List DEv → Option Bool × List DEv) → List DEv →
        Option Bool × List DEv := fun isLast next evs =>
      if !env.aiOk then next (evs ++ [DEv.aiQuery])
      else
        match truthyCommand parsed with
        | some fix =>
          if pyLower (pyStrip (env.answer .confirmFix)) = cs "y" then
            if env.execOk fix then
              if pyLower (pyStrip (env.answer (.rerunAfterFix filename))) = cs "y" then
                let r := rcEngine env fuel (.run filename code none)
                let evs2 := evs ++ DEv.aiQuery :: DEv.askedConfirmFix ::
                  DEv.executedFix fix true :: DEv.askedRerun filename :: r.2
                match r.1 with
                | some true => (some true, evs2)
                | some false => next evs2
                | none => (none, evs2)
              else (some false, evs ++ [DEv.aiQuery, DEv.askedConfirmFix,
                DEv.executedFix fix true, DEv.askedRerun filename, DEv.rerunSkipped filename])
            else next (evs ++ [DEv.aiQuery, DEv.askedConfirmFix, DEv.executedFix fix false])
          else (some false, evs ++ [DEv.aiQuery, DEv.askedConfirmFix, DEv.fixSkipped])
        | none =>
          match parsed.new_files with
          | [f] =>
            if pyLower f.1 ≠ pyLower filename then
              (some false, evs ++ [DEv.aiQuery, DEv.mismatchedFix f.1 filename])
            else if pyLower (pyStrip (env.answer (.saveCorrected f.1))) = cs "y" then
              if env.createOk f.1 then
                if pyLower (pyStrip (env.answer (.rerunCorrected f.1))) = cs "y" then
                  let r := rcEngine env fuel (.run f.1 f.2 parsed.dependencies)
                  let evs2 := evs ++ DEv.aiQuery :: DEv.askedSaveCorrected f.1 ::
                    DEv.savedFile f.1 :: DEv.askedRerun f.1 :: r.2
                  match r.1 with
                  | some true => (some true, evs2)
                  | some false => next evs2
                  | none => (none, evs2)
                else (some false, evs ++ [DEv.aiQuery, DEv.askedSaveCorrected f.1,
                  DEv.savedFile f.1, DEv.askedRerun f.1, DEv.rerunSkipped f.1])
              else (some false, evs ++ [DEv.aiQuery, DEv.askedSaveCorrected f.1,
                DEv.saveFailed f.1])
            else (some false, evs ++ [DEv.aiQuery, DEv.askedSaveCorrected f.1,
              DEv.saveSkipped f.1])
          | _ =>
            match parsed.edited_file with
            | some ef =>
              if pyLower ef.1 ≠ pyLower filename then
                (some false, evs ++ [DEv.aiQuery, DEv.mismatchedFix ef.1 filename])
              else
                let a := applyFileEdit env ef.1
                if a.1 then
                  if pyLower (pyStrip (env.answer (.rerunCorrected ef.1))) = cs "y" then
                    let r := rcEngine env fuel (.run ef.1 ef.2 parsed.dependencies)
                    let evs2 := evs ++ DEv.aiQuery :: (a.2 ++ DEv.askedRerun ef.1 :: r.2)
                    match r.1 with
                    | some true => (some true, evs2)
                    | some false => next evs2
                    | none => (none, evs2)
                  else (some false, evs ++ DEv.aiQuery ::
                    (a.2 ++ [DEv.askedRerun ef.1, DEv.rerunSkipped ef.1]))
                else (some false, evs ++ DEv.aiQuery :: a.2)
            | none =>
              if isLast then (some false, evs ++ [DEv.aiQuery, DEv.debugExhausted])
              else if pyLower (pyStrip (env.answer .retryCodeDebug)) = cs "y" then
                next (evs ++ [DEv.aiQuery, DEv.askedRetryDebug])
              else (some false, evs ++ [DEv.aiQuery, DEv.askedRetryDebug, DEv.debugAborted])
    attempt false (fun evs => attempt true (fun evs2 => (some false, evs2)) evs) []

/-- `_run_code_file filename code depsCmd` with recursion-depth budget. -/
def runCodeFile (env : DEnv) (fuel : Nat) (filename code : List Char)
    (depsCmd : Option (List Char)) : Option Bool × List DEv :=
  rcEngine env fuel (.run filename code depsCmd)

/-- Step 2 of the dispatch: the per-file loop of `_interactive_mode`
(preview, confirm save, create, offer to run known script types; a failed
or declined save skips to the next file).  The run offer invokes
`_run_code_file` **without** a dependency command. -/
def dispatchFiles (env : DEnv) (fuel : Nat) : List (List Char × List Char) → List DEv
  | [] => []
  | (name, code) :: rest =>
    let here : List DEv :=
      if pyLower (env.answer (.saveFile name)) ≠ cs "n" then
        if env.createOk name then
          if isRunnableName name then
            if pyLower (env.answer (.runFile name)) = cs "y" then
              [DEv.askedSave name, DEv.savedFile name, DEv.askedRun name] ++
                (runCodeFile env fuel name code none).2
            else [DEv.askedSave name, DEv.savedFile name, DEv.askedRun name,
              DEv.runDeclined name]
          else [DEv.askedSave name, DEv.savedFile name, DEv.notScriptType name]
        else [DEv.askedSave name, DEv.saveFailed name]
      else [DEv.askedSave name, DEv.saveSkipped name]
    here ++ dispatchFiles env fuel rest

/-- Step 1 of the dispatch: a present, truthy (non-empty) `dependencies`
command is offered for installation; a failed install prints "Dependency
installation failed. Proceeding, …" and execution falls through to the
next step without any further question. -/
def dispatchDeps (env : DEnv) (parsed : Parsed) : List DEv :=
  match parsed.dependencies with
  | some d =>
    if d.isEmpty then []
    else if pyLower (pyStrip (env.answer .installDeps)) ≠ cs "n" then
      [DEv.askedInstall, DEv.ranInstall d] ++
        (if env.installOk d then [DEv.depInstalled] else [DEv.depFailedProceeding])
    else [DEv.askedInstall, DEv.depSkipped]
  | none => []

/-- Steps 2–5 of the dispatch: new files, else an edited file, else a
(truthy) command — auto-executed or confirmed — else the explanation.
Python truthiness: an empty-string command or explanation is treated as
absent. -/
def dispatchMain (env : DEnv) (fuel : Nat) (parsed : Parsed) : List DEv :=
  let explEvs : List DEv :=
    match parsed.explanation with
    | some e => if e.isEmpty then [] else [DEv.printedExplanation e]
    | none => []
  if !parsed.new_files.isEmpty then dispatchFiles env fuel parsed.new_files
  else
    match parsed.edited_file with
    | some (name, _c) => (applyFileEdit env name).2
    | none =>
      match parsed.command with
      | some c =>
        if c.isEmpty then explEvs
        else if env.autoExecute then [DEv.executedCmd c (env.execOk c)]
        else if pyLower (env.answer .execConfirm) ≠ cs "n" then
          [DEv.askedExec, DEv.executedCmd c (env.execOk c)]
        else [DEv.askedExec, DEv.execSkipped]
      | none => explEvs

/-- The dispatch of one parsed response (`_interactive_mode` after
parsing): the dependency step, then the main steps. -/
def dispatch (env : DEnv) (fuel : Nat) (parsed : Parsed) : List DEv :=
  dispatchDeps env parsed ++ dispatchMain env fuel parsed

/-! ## General lemmas about the string model -/

/-- Bridge between the executable `isPrefixOf` and the `<+:` relation. -/
lemma isPre_iff {l₁ l₂ : List Char} : l₁.isPrefixOf l₂ = true ↔ l₁ <+: l₂ :=
  List.isPrefixOf_iff_prefix

/-- A prefix starts with the same character. -/
lemma head?_of_pre {l s : List Char} {c : Char} (h : l <+: s) (hc : l.head? = some c) :
    s.head? = some c := by
  obtain ⟨t, rfl⟩ := h
  rw [List.head?_append, hc]
  rfl

/-- Unfolding `firstIdx` on a cons cell. -/
lemma firstIdx_cons (p : List Char → Bool) (a : Char) (t : List Char) :
    firstIdx p (a :: t) = if p (a :: t) then some 0 else (firstIdx p t).map (· + 1) := rfl

/-- `firstIdx` returns `some 0` as soon as the predicate holds at the front. -/
lemma firstIdx_here {p : List Char → Bool} {s : List Char} (hp : p s = true) :
    firstIdx p s = some 0 := by
  cases s <;> simp [firstIdx, hp]

/-- Introduction rule for a `firstIdx` miss. -/
lemma firstIdx_eq_none_of {p : List Char → Bool} :
    ∀ {s : List Char}, (∀ i, p (s.drop i) = false) → firstIdx p s = none := by
  intro s
  induction s with
  | nil => intro h; simpa [firstIdx] using h 0
  | cons a t ih =>
    intro h
    have h0 : p (a :: t) = false := h 0
    have ht : firstIdx p t = none := ih (fun i => by simpa using h (i + 1))
    simp [firstIdx, h0, ht]

/-- Introduction rule for a `firstIdx` hit at `n`: the predicate holds there
and fails at every earlier position. -/
lemma firstIdx_eq_some_of {p : List Char → Bool} :
    ∀ {s : List Char} {n : Nat}, p (s.drop n) = true → (∀ i < n, p (s.drop i) = false) →
      n ≤ s.length → firstIdx p s = some n := by
  intro s
  induction s with
  | nil =>
    intro n hn _ hle
    obtain rfl : n = 0 := by simpa using hle
    simpa [firstIdx] using hn
  | cons a t ih =>
    intro n hn hb hle
    match n with
    | 0 => simpa [firstIdx] using firstIdx_here hn
    | m + 1 =>
      have h0 : p (a :: t) = false := hb 0 (Nat.succ_pos m)
      have ht : firstIdx p t = some m :=
        ih (by simpa using hn) (fun i hi => by simpa using hb (i + 1) (by omega))
          (by simpa using hle)
      simp [firstIdx, h0, ht]

/-- Characters are unchanged by `dropWhile` at the front when the head
fails the predicate. -/
lemma dropWhile_cons_of_false {p : Char → Bool} {a : Char} {t : List Char}
    (h : p a = false) : List.dropWhile p (a :: t) = a :: t := by
  simp [List.dropWhile_cons, h]

/-- The head surviving a `dropWhile` fails the predicate. -/
lemma head_dropWhile_false {p : Char → Bool} {l : List Char} {a : Char}
    (h : (List.dropWhile p l).head? = some a) : p a = false := by
  have := List.head?_dropWhile_not p l
  rw [h] at this
  exact this

/-- `pyLStrip` is the identity on a string whose head is not whitespace. -/
lemma pyLStrip_eq_self {l : List Char} {a : Char} (h1 : l.head? = some a)
    (h2 : pySpace a = false) : pyLStrip l = l := by
  cases l with
  | nil => simp at h1
  | cons x t =>
    obtain rfl : x = a := by simpa using h1
    exact dropWhile_cons_of_false h2

/-- `pyStrip` is the identity on a string whose two ends are not whitespace. -/
lemma pyStrip_eq_self {l : List Char} {a b : Char} (h1 : l.head? = some a)
    (h2 : pySpace a = false) (h3 : l.getLast? = some b) (h4 : pySpace b = false) :
    pyStrip l = l := by
  have hd : List.dropWhile pySpace l = l := pyLStrip_eq_self h1 h2
  have hrev : (l.reverse).head? = some b := by rw [List.head?_reverse]; exact h3
  have hr : List.dropWhile pySpace l.reverse = l.reverse := pyLStrip_eq_self hrev h4
  unfold pyStrip
  rw [hd, hr, List.reverse_reverse]

/-- The head of a stripped string is not whitespace. -/
lemma pyStrip_head_no_space {l : List Char} {a : Char}
    (h : (pyStrip l).head? = some a) : pySpace a = false := by
  unfold pyStrip at h
  rw [List.head?_reverse] at h
  obtain ⟨pre, hpre⟩ := List.dropWhile_suffix (l := (List.dropWhile pySpace l).reverse) pySpace
  have hlast : ((List.dropWhile pySpace l).reverse).getLast? = some a := by
    rw [← hpre, List.getLast?_append, h]
    rfl
  rw [List.getLast?_reverse] at hlast
  exact head_dropWhile_false hlast

/-- The last character of a stripped string is not whitespace. -/
lemma pyStrip_last_no_space {l : List Char} {a : Char}
    (h : (pyStrip l).getLast? = some a) : pySpace a = false := by
  unfold pyStrip at h
  rw [List.getLast?_reverse] at h
  exact head_dropWhile_false h

/-- Stripping is idempotent. -/
lemma pyStrip_idem (l : List Char) : pyStrip (pyStrip l) = pyStrip l := by
  cases hs : pyStrip l with
  | nil => rfl
  | cons a t =>
    have h1 : (pyStrip l).head? = some a := by rw [hs]; rfl
    have h3 : (pyStrip l).getLast? = some ((a :: t).getLast (by simp)) := by
      rw [hs]
      exact List.getLast?_eq_getLast _ _
    rw [← hs]
    exact pyStrip_eq_self h1 (pyStrip_head_no_space h1) h3
      (pyStrip_last_no_space h3)

/-- `str.lower` never produces an uppercase ASCII letter; in particular it
never produces `C`. -/
lemma lowerChar_ne_upper (c : Char) {u : Char} (hu1 : 65 ≤ u.toNat)
    (hu2 : u.toNat ≤ 90) : lowerChar c ≠ u := by
  unfold lowerChar
  split
  · rename_i hc
    intro h
    have hv : (c.toNat + 32).isValidChar := Or.inl (by omega)
    have ht : (Char.ofNat (c.toNat + 32)).toNat = c.toNat + 32 := by
      unfold Char.ofNat
      rw [dif_pos hv]
      simp [Char.ofNatAux, Char.toNat, UInt32.toNat, BitVec.toNat_ofNatLt]
    have : (Char.ofNat (c.toNat + 32)).toNat = u.toNat := by rw [h]
    omega
  · rename_i hc
    intro h
    subst h
    exact hc ⟨hu1, hu2⟩

/-- If some character of `pat` does not occur in `s`, then `pat` is not a
substring of `s`. -/
lemma strFind_eq_none_of_missing {pat s : List Char} {c : Char} (hc : c ∈ pat)
    (hs : c ∉ s) : strFind pat s = none := by
  apply firstIdx_eq_none_of
  intro i
  by_contra hp
  have hpre : pat <+: s.drop i := isPre_iff.mp (by simpa using hp)
  exact hs (List.drop_subset i s (hpre.subset hc))

/-! ## Locating tag literals in concatenations

The protocol strings handled by claims about well-formed responses are
concatenations of **chunks**: literal tags (which contain `<` only as their
first character) and payloads (which contain no `<` at all).  An occurrence
of a `<`-headed pattern can therefore only start at a chunk boundary, and is
refuted chunk by chunk: a payload cannot start it (wrong head), a different
tag disagrees at some position (`clashB`). -/

/-- Decidable test that `pat` disagrees with `a` at a position inside both,
so that `pat` can never be a prefix of `a ++ rest`. -/
def clashB (pat a : List Char) : Bool :=
  (List.range (min pat.length a.length)).any (fun k => decide (pat[k]? ≠ a[k]?))

lemma clash_refute {pat a : List Char} (h : clashB pat a = true) :
    ∀ rest, ¬ pat <+: a ++ rest := by
  intro rest hpre
  obtain ⟨k, hk, hne⟩ := List.any_eq_true.mp h
  rw [List.mem_range] at hk
  have hkp : k < pat.length := lt_of_lt_of_le hk (min_le_left _ _)
  have hka : k < a.length := lt_of_lt_of_le hk (min_le_right _ _)
  obtain ⟨t, ht⟩ := hpre
  have h1 : (a ++ rest)[k]? = pat[k]? := by
    rw [← ht]
    exact List.getElem?_append_left hkp
  have h2 : (a ++ rest)[k]? = a[k]? := List.getElem?_append_left hka
  exact (of_decide_eq_true hne) (h1.symm.trans h2)

/-- A `<`-headed pattern cannot start inside a `<`-free payload. -/
lemma payload_refute {cls ch : List Char} (hh : cls.head? = some '<')
    (hfree : ∀ x ∈ ch, x ≠ '<') :
    ∀ rest, ch ≠ [] → ¬ cls <+: ch ++ rest := by
  intro rest hne hpre
  have hhead := head?_of_pre hpre hh
  cases ch with
  | nil => exact hne rfl
  | cons x t =>
    have hx : x = '<' := by simpa using hhead
    exact hfree x (by simp) hx

/-- Scanning for `p` (a predicate that forces the `<`-headed literal `cls`
as a prefix wherever it holds) can skip a whole chunk in which `cls` cannot
start. -/
lemma firstIdx_skip {p : List Char → Bool} {cls : List Char}
    (himp : ∀ s, p s = true → cls <+: s) (hh : cls.head? = some '<') :
    ∀ (ch u : List Char), (∀ x ∈ ch.drop 1, x ≠ '<') →
      (∀ rest, ch ≠ [] → ¬ cls <+: ch ++ rest) →
      firstIdx p (ch ++ u) = (firstIdx p u).map (· + ch.length) := by
  intro ch
  induction ch with
  | nil =>
    intro u _ _
    rw [List.nil_append]
    cases h : firstIdx p u <;> simp [h]
  | cons a t ih =>
    intro u hok hstart
    have h0 : p ((a :: t) ++ u) = false := by
      by_contra hp
      rw [Bool.not_eq_false] at hp
      exact hstart u (by simp) (himp _ hp)
    have ht : firstIdx p (t ++ u) = (firstIdx p u).map (· + t.length) := by
      apply ih
      · intro x hx
        exact hok x (by simpa using List.drop_subset 1 t hx)
      · intro rest hne hpre
        have hhead := head?_of_pre hpre hh
        cases t with
        | nil => exact hne rfl
        | cons y t2 =>
          have hy : y = '<' := by simpa using hhead
          exact hok y (by simp) hy
    rw [List.cons_append] at h0 ⊢
    rw [firstIdx_cons, if_neg (by simp [h0]), ht, Option.map_map]
    cases h : firstIdx p u <;> simp [h]

/-- Scanning for `p` can skip a whole list of refuted chunks. -/
lemma firstIdx_chunks {p : List Char → Bool} {cls : List Char}
    (himp : ∀ s, p s = true → cls <+: s) (hh : cls.head? = some '<') :
    ∀ (pre : List (List Char)) (tail : List Char),
      (∀ ch ∈ pre, ∀ x ∈ ch.drop 1, x ≠ '<') →
      (∀ ch ∈ pre, ∀ rest, ch ≠ [] → ¬ cls <+: ch ++ rest) →
      firstIdx p (pre.flatten ++ tail) = (firstIdx p tail).map (· + pre.flatten.length) := by
  intro pre
  induction pre with
  | nil =>
    intro tail _ _
    rw [List.flatten_nil, List.nil_append]
    cases h : firstIdx p tail <;> simp [h]
  | cons ch pre2 ih =>
    intro tail hok href
    have h1 := firstIdx_skip himp hh ch (pre2.flatten ++ tail)
      (hok ch (by simp)) (href ch (by simp))
    have h2 := ih tail (fun c hc => hok c (by simp [hc]))
      (fun c hc => href c (by simp [hc]))
    rw [List.flatten_cons, List.append_assoc, h1, h2, Option.map_map]
    cases h : firstIdx p tail <;> simp [h, List.length_append]
    omega

/-- `strFind` finds a pattern sitting right at the front. -/
lemma strFind_at_start {pat u : List Char} : strFind pat (pat ++ u) = some 0 :=
  firstIdx_here (isPre_iff.mpr ⟨u, rfl⟩)

/-- `strFind` of a nonempty pattern in the empty string. -/
lemma strFind_nil {pat : List Char} (hne : pat ≠ []) : strFind pat [] = none := by
  cases pat with
  | nil => exact absurd rfl hne
  | cons a t => rfl

/-- `strFind` over refuted chunks followed by a tail. -/
lemma strFind_chunks {pat : List Char} (hh : pat.head? = some '<')
    (pre : List (List Char)) (tail : List Char)
    (hok : ∀ ch ∈ pre, ∀ x ∈ ch.drop 1, x ≠ '<')
    (href : ∀ ch ∈ pre, ∀ rest, ch ≠ [] → ¬ pat <+: ch ++ rest) :
    strFind pat (pre.flatten ++ tail) = (strFind pat tail).map (· + pre.flatten.length) :=
  firstIdx_chunks (fun _ h => isPre_iff.mp h) hh pre tail hok href

/-- `strFind` misses entirely when every chunk refutes the pattern. -/
lemma strFind_none_chunks {pat : List Char} (hh : pat.head? = some '<')
    (chunks : List (List Char))
    (hok : ∀ ch ∈ chunks, ∀ x ∈ ch.drop 1, x ≠ '<')
    (href : ∀ ch ∈ chunks, ∀ rest, ch ≠ [] → ¬ pat <+: ch ++ rest) :
    strFind pat chunks.flatten = none := by
  have hne : pat ≠ [] := by
    intro h
    rw [h] at hh
    simp at hh
  have h2 := strFind_chunks hh chunks [] hok href
  rw [List.append_nil, strFind_nil hne] at h2
  simpa using h2

/-- Wherever `sepHere cls nxt` holds, `cls` is a prefix. -/
lemma sepHere_imp (cls nxt : List Char) : ∀ s, sepHere cls nxt s = true → cls <+: s := by
  intro s h
  rw [sepHere, Bool.and_eq_true] at h
  exact isPre_iff.mp h.1

/-- `sepHere` holds where the separator and the next literal are adjacent
(the next literal starting with a non-whitespace character). -/
lemma sepHere_hit {cls nxt rest : List Char} {c : Char} (hn : nxt.head? = some c)
    (hc : pySpace c = false) : sepHere cls nxt (cls ++ (nxt ++ rest)) = true := by
  rw [sepHere, Bool.and_eq_true]
  refine ⟨isPre_iff.mpr ⟨_, rfl⟩, ?_⟩
  rw [List.drop_left]
  have hhd : (nxt ++ rest).head? = some c := by
    rw [List.head?_append, hn]
    rfl
  rw [pyLStrip_eq_self hhd hc]
  exact isPre_iff.mpr ⟨_, rfl⟩

/-- `findSep` over refuted chunks followed by a tail. -/
lemma findSep_chunks {cls nxt : List Char} (hh : cls.head? = some '<')
    (pre : List (List Char)) (tail : List Char)
    (hok : ∀ ch ∈ pre, ∀ x ∈ ch.drop 1, x ≠ '<')
    (href : ∀ ch ∈ pre, ∀ rest, ch ≠ [] → ¬ cls <+: ch ++ rest) :
    findSep cls nxt (pre.flatten ++ tail) = (findSep cls nxt tail).map (· + pre.flatten.length) :=
  firstIdx_chunks (sepHere_imp cls nxt) hh pre tail hok href

/-! ## Claim C1 — exclusivity of new files and edited file -/

/-- A response carrying both a well-formed `<files>` block and a well-formed
edited-file pattern. -/
def c1raw : List Char :=
  cs "<files><file><filename>a.py</filename><code>print(1)</code></file></files><edited_filename>b.py</edited_filename><edited_code>x=2</edited_code>"

/-- **C1, counterexample.**  The parser extracts the edited-file pattern
whether or not the `<files>` block matched: on `c1raw` the parse yields a
non-empty `new_files` **and** a non-null `edited_file` simultaneously,
contradicting the claimed exclusivity. -/
theorem claim1_counterexample :
    (parseAiResponse c1raw).new_files = [(cs "a.py", cs "print(1)")] ∧
    (parseAiResponse c1raw).edited_file = some (cs "b.py", cs "x=2") := by
  decide

/-- **C1, amended.**  The precedence gating applies to the single-file rule,
not the edited-file rule: whenever the `<files>` block does **not** match
(on the text remaining after dependency extraction), a parse never yields
both a non-empty `new_files` list and a non-null `edited_file`; with a
matching `<files>` block both can be populated (see the counterexample). -/
theorem claim1_amended (raw : List Char)
    (hfb : searchTag filesOpen filesClose (depsStep (pyStrip raw)).2 = none) :
    ¬((parseAiResponse raw).new_files ≠ [] ∧ (parseAiResponse raw).edited_file ≠ none) := by
  rintro ⟨h1, h2⟩
  simp only [parseAiResponse, parseFrom, filesStep, hfb] at h1 h2
  cases hed : (editedStep ((depsStep (pyStrip raw)).2)).1 with
  | none => simp [hed] at h2
  | some p => simp [hed] at h1

/-- **C1, witness** for the amended statement at a concrete input whose
`<files>` block does not match. -/
theorem claim1_amended_witness :
    ¬((parseAiResponse (cs "<edited_filename>b</edited_filename><edited_code>y</edited_code>")).new_files ≠ [] ∧
      (parseAiResponse (cs "<edited_filename>b</edited_filename><edited_code>y</edited_code>")).edited_file ≠ none) :=
  claim1_amended _ (by decide)

/-! ## Claim C2 — executor output on non-zero exit -/

/-- A run in which the spawned process fails with stderr `"boom"` and the
user declines AI debugging. -/
def envC2 : Env :=
  { safeMode := true
    shell := fun _ => (1, [], cs "boom")
    aiOk := true
    aiResponse := []
    answer := fun _ => cs "n" }

/-- **C2, counterexample.**  On a non-zero exit the executor does **not**
return the trimmed stderr (nor the exit-code sentinel) as `output`: after
the user declines debugging it returns the fixed "Command failed and
debugging skipped." message. -/
theorem claim2_counterexample :
    execCmd envC2 1 (cs "echo hi") = (some (debugSkipMsg, false), [Ev.spawn (cs "echo hi")]) ∧
    debugSkipMsg ≠ pyStrip (cs "boom") ∧
    debugSkipMsg ≠ failSentinel 1 := by
  decide

/-- **C2, amended.**  On exit code 0 the result is `succeeded = true` with
stdout trimmed or the success sentinel.  On a non-zero exit the result has
`succeeded = false` with the fixed debugging-skipped message when the user
declines AI debugging; when the user accepts, the trimmed stderr — or the
"Command failed with exit code N" sentinel when stderr is empty — is the
error text handed to the debug loop, whose result is returned verbatim. -/
theorem claim2_amended (env : Env) (fuel : Nat) (cmd stdout stderr : List Char) (rc : Int)
    (hnb : (env.safeMode && dangerousCommands.any fun d => containsSub d (pyLower cmd)) = false)
    (hsh : env.shell cmd = (rc, stdout, stderr)) :
    (rc = 0 → execCmd env (fuel + 1) cmd =
      (some ((if stdout.isEmpty then okSentinel else pyStrip stdout), true), [Ev.spawn cmd])) ∧
    (rc ≠ 0 → pyLower (pyStrip (env.answer .debugChoice)) ≠ cs "y" →
      execCmd env (fuel + 1) cmd = (some (debugSkipMsg, false), [Ev.spawn cmd])) ∧
    (rc ≠ 0 → pyLower (pyStrip (env.answer .debugChoice)) = cs "y" →
      execCmd env (fuel + 1) cmd =
        ((debugCommandError env fuel cmd
            (if stderr.isEmpty then failSentinel rc else pyStrip stderr)).1,
         Ev.spawn cmd :: (debugCommandError env fuel cmd
            (if stderr.isEmpty then failSentinel rc else pyStrip stderr)).2)) := by
  refine ⟨?_, ?_, ?_⟩
  · intro h0
    simp [execCmd, engine, hnb, hsh, h0]
  · intro h0 hn
    simp [execCmd, engine, hnb, hsh, h0, hn]
  · intro h0 hy
    simp [execCmd, debugCommandError, engine, hnb, hsh, h0, hy]

/-- A run in which the process succeeds with stdout `"out"`. -/
def envC2w : Env :=
  { safeMode := true
    shell := fun _ => (0, cs "out", [])
    aiOk := true
    aiResponse := []
    answer := fun _ => [] }

/-- **C2, witness** for the amended statement on the success branch. -/
theorem claim2_amended_witness :
    execCmd envC2w 1 (cs "ls") = (some (cs "out", true), [Ev.spawn (cs "ls")]) := by
  rw [(claim2_amended envC2w 0 (cs "ls") (cs "out") [] 0 (by decide) rfl).1 rfl]
  decide

/-! ## Claim C4 — safe mode blocks `rm -rf /` before any spawn -/

/-- **C4, confirmed.**  With safe mode on, any command whose lower-cased
text contains `rm -rf /` is rejected with `succeeded = false` and an empty
event trace: the shell-spawn oracle is invoked zero times. -/
theorem claim4_blocklist (env : Env) (fuel : Nat) (cmd : List Char)
    (hs : env.safeMode = true)
    (hin : containsSub (cs "rm -rf /") (pyLower cmd) = true) :
    execCmd env (fuel + 1) cmd = (some (blockedMsg, false), []) ∧
    countSpawn (execCmd env (fuel + 1) cmd).2 = 0 := by
  have hany : (dangerousCommands.any fun d => containsSub d (pyLower cmd)) = true :=
    List.any_eq_true.mpr ⟨cs "rm -rf /", by simp [dangerousCommands], hin⟩
  have h : execCmd env (fuel + 1) cmd = (some (blockedMsg, false), []) := by
    simp [execCmd, engine, hs, hany]
  exact ⟨h, by rw [h]; rfl⟩

/-- An environment with safe mode on. -/
def envC4 : Env :=
  { safeMode := true
    shell := fun _ => (0, [], [])
    aiOk := true
    aiResponse := []
    answer := fun _ => [] }

/-- **C4, witness** at a mixed-case concrete command. -/
theorem claim4_witness :
    execCmd envC4 1 (cs "sudo RM -RF / tmp") = (some (blockedMsg, false), []) :=
  (claim4_blocklist envC4 0 (cs "sudo RM -RF / tmp") rfl (by decide)).1

/-! ## Claim C6 — dependency removal versus later rules -/

/-- The parser's rule-1 removal: the text that remains after extracting the
first `<dependencies>…</dependencies>` span (the input is stripped first,
as `_parse_ai_response` does). -/
def removeDeps (raw : List Char) : List Char := (depsStep (pyStrip raw)).2

/-- A response with two dependency spans, the second wrapping an
`<execute>` tag. -/
def c6raw : List Char :=
  cs "<dependencies>a</dependencies><dependencies><execute>x</execute></dependencies>"

/-- **C6, counterexample.**  Removing the first `<dependencies>` span is
not neutral for the later rules: parsing `c6raw` yields the command `x`
(the second span's `<execute>` tag survives rule 1), while parsing the
pre-removed text yields no command (rule 1 now swallows that tag). -/
theorem claim6_counterexample :
    (parseAiResponse c6raw).command = some (cs "x") ∧
    (parseAiResponse (removeDeps c6raw)).command = none := by
  decide

/-- **C6, amended.**  When the pre-removed text contains no further
`<dependencies>` match (in particular for every raw text with at most one
dependency span), parsing the original and parsing the pre-removed text
produce the same `command`, `new_files` and `edited_file`. -/
theorem claim6_amended (raw : List Char)
    (h : searchTag depsOpen depsClose (removeDeps raw) = none) :
    (parseAiResponse (removeDeps raw)).command = (parseAiResponse raw).command ∧
    (parseAiResponse (removeDeps raw)).new_files = (parseAiResponse raw).new_files ∧
    (parseAiResponse (removeDeps raw)).edited_file = (parseAiResponse raw).edited_file := by
  have hstrip : pyStrip (removeDeps raw) = removeDeps raw := by
    unfold removeDeps depsStep
    cases hs : searchTag depsOpen depsClose (pyStrip raw) with
    | none => simpa using pyStrip_idem raw
    | some g => simp [removeSpan, pyStrip_idem]
  have hL : parseAiResponse (removeDeps raw) =
      { parseFrom (removeDeps raw) with dependencies := none } := by
    unfold parseAiResponse
    rw [hstrip]
    unfold depsStep
    rw [h]
  have hR : parseAiResponse raw =
      { parseFrom (removeDeps raw) with dependencies := (depsStep (pyStrip raw)).1 } := rfl
  rw [hL, hR]
  exact ⟨rfl, rfl, rfl⟩

/-- **C6, witness** for the amended statement at a concrete single-span
input. -/
theorem claim6_amended_witness :
    (parseAiResponse (removeDeps (cs "<dependencies>pip install a</dependencies><execute>go</execute>"))).command =
      (parseAiResponse (cs "<dependencies>pip install a</dependencies><execute>go</execute>")).command ∧
    (parseAiResponse (removeDeps (cs "<dependencies>pip install a</dependencies><execute>go</execute>"))).new_files =
      (parseAiResponse (cs "<dependencies>pip install a</dependencies><execute>go</execute>")).new_files ∧
    (parseAiResponse (removeDeps (cs "<dependencies>pip install a</dependencies><execute>go</execute>"))).edited_file =
      (parseAiResponse (cs "<dependencies>pip install a</dependencies><execute>go</execute>")).edited_file :=
  claim6_amended _ (by decide)

/-! ## Claim C7 — totality and fallback to explanation -/

/-- **C7, confirmed.**  The parser is a total function by construction
(`parseAiResponse` is a Lean function; unterminated or mismatched tags make
the corresponding search return `none`, never an error).  When no tag
pattern matches the (stripped) response, every structured component is
empty and the entire stripped response is returned as the explanation
(`none` when it is empty, per Python truthiness). -/
theorem claim7_total_fallback (raw : List Char)
    (h1 : searchTag depsOpen depsClose (pyStrip raw) = none)
    (h2 : searchTag filesOpen filesClose (pyStrip raw) = none)
    (h3 : searchTag2 editedOpen editedMid editedClose (pyStrip raw) = none)
    (h4 : searchTag2 fnOpen fnMid fnClose (pyStrip raw) = none)
    (h5 : searchTag execOpen execClose (pyStrip raw) = none) :
    parseAiResponse raw =
      { command := none, new_files := [], edited_file := none, dependencies := none,
        explanation := if (pyStrip raw).isEmpty then none else some (pyStrip raw) } := by
  simp [parseAiResponse, depsStep, h1, parseFrom, filesStep, h2, editedStep, h3,
    singleStep, h4, execStep, h5]

/-- **C7, witness** at a concrete input with an unterminated tag: the open
`<execute>` without a closing tag is no match, and the whole trimmed
response becomes the explanation. -/
theorem claim7_witness :
    parseAiResponse (cs "  hello <execute> world  ") =
      { command := none, new_files := [], edited_file := none, dependencies := none,
        explanation := if (pyStrip (cs "  hello <execute> world  ")).isEmpty then none
          else some (pyStrip (cs "  hello <execute> world  ")) } :=
  claim7_total_fallback _ (by decide) (by decide) (by decide) (by decide) (by decide)

/-! ## Claim C8 — dispatcher behaviour on failed dependency install -/

/-- The parsed response of the scenario: dependencies plus one new file. -/
def c8resp : List Char :=
  cs "<dependencies>pip install flask</dependencies><filename>app.py</filename><code>print(1)</code>"

/-- Dispatch environment in which the install fails, saving is confirmed
and running is declined. -/
def envC8 : DEnv :=
  { answer := fun p => match p with
      | .runFile _ => cs "n"
      | _ => cs "y"
    installOk := fun _ => false
    createOk := fun _ => true
    writeOk := fun _ => true
    runExit := fun _ => some 0
    execOk := fun _ => true
    aiOk := true
    aiResponse := []
    autoExecute := false }

/-- **C8, counterexample.**  After the dependency install fails, the
dispatcher surfaces the failure and moves straight on to the file step: the
next interaction is the save prompt, and no
continue-despite-failure question is asked anywhere in this dispatch. -/
theorem claim8_counterexample :
    dispatch envC8 1 (parseAiResponse c8resp) =
      [DEv.askedInstall, DEv.ranInstall (cs "pip install flask"), DEv.depFailedProceeding,
       DEv.askedSave (cs "app.py"), DEv.savedFile (cs "app.py"),
       DEv.askedRun (cs "app.py"), DEv.runDeclined (cs "app.py")] ∧
    DEv.askedProceedDespiteFailure ∉ dispatch envC8 1 (parseAiResponse c8resp) := by
  decide

/-- **C8, amended.**  When a dispatched response carries a (non-empty)
dependencies command and the install fails, the Dispatcher surfaces the
failure and proceeds with the remaining steps **without** asking whether to
continue: its dependency step emits exactly the install offer, the install
and the failure notice, after which the main steps follow.  The explicit
proceed-despite-failure question belongs to `_run_code_file`: it is asked
whenever a (non-empty) dependency command passed to it fails to install —
the dispatcher's own file step passes none, but a failed run's AI-debug
re-entry may (see `askProceed_reachable_in_dispatch`). -/
theorem claim8_amended :
    (∀ (env : DEnv) (fuel : Nat) (parsed : Parsed) (d : List Char),
      parsed.dependencies = some d → d ≠ [] →
      pyLower (pyStrip (env.answer .installDeps)) ≠ cs "n" →
      env.installOk d = false →
      dispatchDeps env parsed =
        [DEv.askedInstall, DEv.ranInstall d, DEv.depFailedProceeding] ∧
      dispatch env fuel parsed =
        [DEv.askedInstall, DEv.ranInstall d, DEv.depFailedProceeding] ++
          dispatchMain env fuel parsed) ∧
    (∀ (env : DEnv) (fuel : Nat) (filename code d : List Char),
      (runners.lookup (pyLower (extOf filename))).isSome = true → d ≠ [] →
      pyLower (pyStrip (env.answer .installDepsBeforeRun)) ≠ cs "n" →
      env.installOk d = false →
      DEv.askedProceedDespiteFailure ∈
        (runCodeFile env (fuel + 1) filename code (some d)).2) := by
  constructor
  · intro env fuel parsed d hd hdne hans hfail
    have hde : d.isEmpty = false := by
      cases d with
      | nil => exact absurd rfl hdne
      | cons a t => rfl
    have h1 : dispatchDeps env parsed =
        [DEv.askedInstall, DEv.ranInstall d, DEv.depFailedProceeding] := by
      simp [dispatchDeps, hd, hde, hans, hfail]
    refine ⟨h1, ?_⟩
    unfold dispatch
    rw [h1]
  · intro env fuel filename code d hrun hdne hans hfail
    obtain ⟨v, hv⟩ := Option.isSome_iff_exists.mp hrun
    have hde : d.isEmpty = false := by
      cases d with
      | nil => exact absurd rfl hdne
      | cons a t => rfl
    unfold runCodeFile
    simp only [rcEngine]
    rw [hv]
    by_cases hy : pyLower (pyStrip (env.answer .proceedDespiteDepFailure)) = cs "y" <;>
      simp [hde, hans, hfail, hy]

/-- Environment for the C8 amended witness: install before run fails. -/
def envC8w : DEnv :=
  { answer := fun _ => cs "y"
    installOk := fun _ => false
    createOk := fun _ => true
    writeOk := fun _ => true
    runExit := fun _ => some 0
    execOk := fun _ => true
    aiOk := true
    aiResponse := []
    autoExecute := false }

/-- **C8, witness** for the amended statement. -/
theorem claim8_amended_witness :
    DEv.askedProceedDespiteFailure ∈
      (runCodeFile envC8w 1 (cs "a.py") (cs "x=1") (some (cs "pip install q"))).2 :=
  claim8_amended.2 envC8w 0 (cs "a.py") (cs "x=1") (cs "pip install q") (by decide)
    (by decide) (by decide) rfl

/-- Environment in which every run fails, every install fails, every
confirmation is yes, and the debug AI answers with a corrected file that
carries its own dependencies. -/
def envC8r : DEnv :=
  { answer := fun _ => cs "y"
    installOk := fun _ => false
    createOk := fun _ => true
    writeOk := fun _ => true
    runExit := fun _ => some 1
    execOk := fun _ => true
    aiOk := true
    aiResponse := cs "<dependencies>pip install z</dependencies><filename>a.py</filename><code>y=2</code>"
    autoExecute := false }

/-- Within a dispatch, the proceed-despite-failure question **is**
reachable through the failed-run debug path: the AI's corrected file
carries its own `<dependencies>`, whose failed install reaches the prompt
inside the re-entered `_run_code_file`.  (So no universal absence holds of
the whole dispatch; the amended statement above is localized to the
dispatcher's dependency step.) -/
lemma askProceed_reachable_in_dispatch :
    DEv.askedProceedDespiteFailure ∈
      dispatch envC8r 4 (parseAiResponse (cs "<filename>a.py</filename><code>x=1</code>")) := by
  decide

/-! ## Claim C9 — a lone `<execute>` tag parses to a bare command -/

/-- A missed opening literal fails the whole one-group pattern. -/
lemma searchTag_none_of {opn cls s : List Char} (h : strFind opn s = none) :
    searchTag opn cls s = none := by
  simp [searchTag, h]

/-- A missed opening literal fails the whole two-group pattern. -/
lemma searchTag2_none_of {opn mid cls s : List Char} (h : strFind opn s = none) :
    searchTag2 opn mid cls s = none := by
  simp [searchTag2, h]

/-- No `<`-headed pattern clashing with both `<execute>` literals occurs
anywhere in `<execute>c</execute>` when `c` is `<`-free. -/
lemma chunks3_refute {pat : List Char} {c : List Char} (hh : pat.head? = some '<')
    (h1 : clashB pat execOpen = true) (h2 : clashB pat execClose = true)
    (hc : ∀ x ∈ c, x ≠ '<') :
    strFind pat (execOpen ++ (c ++ execClose)) = none := by
  have hflat : ([execOpen, c, execClose] : List (List Char)).flatten =
      execOpen ++ (c ++ execClose) := by simp
  rw [← hflat]
  apply strFind_none_chunks hh
  · intro ch hch
    rcases (by simpa using hch : ch = execOpen ∨ ch = c ∨ ch = execClose) with rfl | rfl | rfl
    · decide
    · intro x hx
      exact hc x (List.drop_subset 1 ch hx)
    · decide
  · intro ch hch
    rcases (by simpa using hch : ch = execOpen ∨ ch = c ∨ ch = execClose) with rfl | rfl | rfl
    · exact fun rest _ => clash_refute h1 rest
    · exact payload_refute hh hc
    · exact fun rest _ => clash_refute h2 rest

/-- The `<execute>c</execute>` trailer is unchanged by stripping. -/
lemma pyStrip_execPart (c : List Char) :
    pyStrip (execOpen ++ (c ++ execClose)) = execOpen ++ (c ++ execClose) := by
  have hlast : (execOpen ++ (c ++ execClose)).getLast? = some '>' := by
    rw [List.getLast?_append, List.getLast?_append]
    rfl
  exact pyStrip_eq_self rfl (by decide) hlast (by decide)

/-- Step 5 on the text `<execute>c</execute>` (with `<`-free `c`): the
command is the stripped `c` and nothing remains. -/
lemma execStep_only (c : List Char) (hc : ∀ x ∈ c, x ≠ '<') :
    execStep (execOpen ++ (c ++ execClose)) = (some (pyStrip c), []) := by
  have hopen : strFind execOpen (execOpen ++ (c ++ execClose)) = some 0 := strFind_at_start
  have hclose : strFind execClose (c ++ execClose) = some c.length := by
    have hflat : ([c] : List (List Char)).flatten ++ execClose = c ++ execClose := by simp
    rw [← hflat, strFind_chunks (by decide) [c] execClose ?hok ?href]
    case hok =>
      intro ch hch
      obtain rfl : ch = c := by simpa using hch
      intro x hx
      exact hc x (List.drop_subset 1 ch hx)
    case href =>
      intro ch hch
      obtain rfl : ch = c := by simpa using hch
      exact payload_refute (by decide) hc
    have h0 : strFind execClose execClose = some 0 := by
      nth_rewrite 2 [(List.append_nil execClose).symm]
      exact strFind_at_start
    simp [h0]
  have hdrop : (execOpen ++ (c ++ execClose)).drop (0 + execOpen.length) = c ++ execClose :=
    List.drop_left' (by decide)
  have htake : (c ++ execClose).take c.length = c := List.take_left c execClose
  have hrem : removeSpan (execOpen ++ (c ++ execClose)) 0
      (0 + execOpen.length + c.length + execClose.length) = [] := by
    unfold removeSpan
    have hlen : 0 + execOpen.length + c.length + execClose.length =
        (execOpen ++ (c ++ execClose)).length := by
      simp [List.length_append]
      omega
    rw [hlen, List.drop_length]
    rfl
  unfold execStep searchTag
  simp only [hopen, hdrop, hclose, htake, hrem]

/-- **C9, confirmed.**  A raw text consisting of exactly one well-formed
`<execute>cmd</execute>` tag (the command text containing no `<`) parses to
`command = cmd` (trimmed) with no files, edited file, dependencies, or
explanation. -/
theorem claim9_execute_only (c : List Char) (hc : ∀ x ∈ c, x ≠ '<') :
    parseAiResponse (execOpen ++ c ++ execClose) =
      { command := some (pyStrip c), new_files := [], edited_file := none,
        dependencies := none, explanation := none } := by
  rw [List.append_assoc]
  have hstrip : pyStrip (execOpen ++ (c ++ execClose)) = execOpen ++ (c ++ execClose) :=
    pyStrip_execPart c
  have hdeps : searchTag depsOpen depsClose (execOpen ++ (c ++ execClose)) = none :=
    searchTag_none_of (chunks3_refute (by decide) (by decide) (by decide) hc)
  have hfiles : searchTag filesOpen filesClose (execOpen ++ (c ++ execClose)) = none :=
    searchTag_none_of (chunks3_refute (by decide) (by decide) (by decide) hc)
  have hedited : searchTag2 editedOpen editedMid editedClose (execOpen ++ (c ++ execClose)) = none :=
    searchTag2_none_of (chunks3_refute (by decide) (by decide) (by decide) hc)
  have hfn : searchTag2 fnOpen fnMid fnClose (execOpen ++ (c ++ execClose)) = none :=
    searchTag2_none_of (chunks3_refute (by decide) (by decide) (by decide) hc)
  simp [parseAiResponse, hstrip, depsStep, hdeps, parseFrom, filesStep, hfiles,
    editedStep, hedited, singleStep, hfn, execStep_only c hc]

/-- **C9, witness** at the concrete command `ls -l`. -/
theorem claim9_witness :
    parseAiResponse (execOpen ++ cs "ls -l" ++ execClose) =
      { command := some (pyStrip (cs "ls -l")), new_files := [], edited_file := none,
        dependencies := none, explanation := none } :=
  claim9_execute_only (cs "ls -l") (by decide)

/-! ## Claim C5 — files block plus trailing execute -/

/-- Chunk decomposition of one canonical `<file>` entry. -/
def entryChunks (e : List Char × List Char) : List (List Char) :=
  [cs "<file>", cs "<filename>", e.1, cs "</filename>", cs "<code>", e.2,
   cs "</code>", cs "</file>"]

/-- The text of one canonical `<file>` entry. -/
def entryText (e : List Char × List Char) : List Char := (entryChunks e).flatten

/-- The content of a canonical `<files>` block: its entries in order. -/
def bodyOf (entries : List (List Char × List Char)) : List Char :=
  (entries.flatMap entryChunks).flatten

/-- A canonical response: a well-formed `<files>` block followed by a
trailing `<execute>` tag. -/
def filesRaw (entries : List (List Char × List Char)) (c : List Char) : List Char :=
  filesOpen ++ (bodyOf entries ++ (filesClose ++ (execOpen ++ (c ++ execClose))))

/-- Payload freeness of a list of entries. -/
def EntriesFree (entries : List (List Char × List Char)) : Prop :=
  ∀ e ∈ entries, (∀ x ∈ e.1, x ≠ '<') ∧ (∀ x ∈ e.2, x ≠ '<')

/-- Every chunk of the canonical entries has `<` only at its head. -/
lemma entry_chunks_ok {entries : List (List Char × List Char)} (hfree : EntriesFree entries) :
    ∀ ch ∈ entries.flatMap entryChunks, ∀ x ∈ ch.drop 1, x ≠ '<' := by
  intro ch hch
  rw [List.mem_flatMap] at hch
  obtain ⟨e, he, hche⟩ := hch
  obtain ⟨hn, hcd⟩ := hfree e he
  rcases (by simpa [entryChunks] using hche :
      ch = cs "<file>" ∨ ch = cs "<filename>" ∨ ch = e.1 ∨ ch = cs "</filename>" ∨
      ch = cs "<code>" ∨ ch = e.2 ∨ ch = cs "</code>" ∨ ch = cs "</file>") with
    rfl | rfl | rfl | rfl | rfl | rfl | rfl | rfl
  · decide
  · decide
  · intro x hx
    exact hn x (List.drop_subset 1 _ hx)
  · decide
  · decide
  · intro x hx
    exact hcd x (List.drop_subset 1 _ hx)
  · decide
  · decide

/-- A pattern clashing with all six entry literals cannot start in any
chunk of the canonical entries. -/
lemma entry_chunks_refute {pat : List Char} (hh : pat.head? = some '<')
    (k1 : clashB pat (cs "<file>") = true) (k2 : clashB pat (cs "<filename>") = true)
    (k3 : clashB pat (cs "</filename>") = true) (k4 : clashB pat (cs "<code>") = true)
    (k5 : clashB pat (cs "</code>") = true) (k6 : clashB pat (cs "</file>") = true)
    {entries : List (List Char × List Char)} (hfree : EntriesFree entries) :
    ∀ ch ∈ entries.flatMap entryChunks, ∀ rest, ch ≠ [] → ¬ pat <+: ch ++ rest := by
  intro ch hch
  rw [List.mem_flatMap] at hch
  obtain ⟨e, he, hche⟩ := hch
  obtain ⟨hn, hcd⟩ := hfree e he
  rcases (by simpa [entryChunks] using hche :
      ch = cs "<file>" ∨ ch = cs "<filename>" ∨ ch = e.1 ∨ ch = cs "</filename>" ∨
      ch = cs "<code>" ∨ ch = e.2 ∨ ch = cs "</code>" ∨ ch = cs "</file>") with
    rfl | rfl | rfl | rfl | rfl | rfl | rfl | rfl
  · exact fun rest _ => clash_refute k1 rest
  · exact fun rest _ => clash_refute k2 rest
  · exact payload_refute hh hn
  · exact fun rest _ => clash_refute k3 rest
  · exact fun rest _ => clash_refute k4 rest
  · exact payload_refute hh hcd
  · exact fun rest _ => clash_refute k5 rest
  · exact fun rest _ => clash_refute k6 rest

/-- A pattern clashing with all ten tag literals of the canonical response
occurs nowhere in it. -/
lemma filesRaw_refute {pat : List Char} (hh : pat.head? = some '<')
    (k0 : clashB pat filesOpen = true)
    (k1 : clashB pat (cs "<file>") = true) (k2 : clashB pat (cs "<filename>") = true)
    (k3 : clashB pat (cs "</filename>") = true) (k4 : clashB pat (cs "<code>") = true)
    (k5 : clashB pat (cs "</code>") = true) (k6 : clashB pat (cs "</file>") = true)
    (k7 : clashB pat filesClose = true) (k8 : clashB pat execOpen = true)
    (k9 : clashB pat execClose = true)
    {entries : List (List Char × List Char)} {c : List Char}
    (hfree : EntriesFree entries) (hc : ∀ x ∈ c, x ≠ '<') :
    strFind pat (filesRaw entries c) = none := by
  have hflat : (filesOpen :: (entries.flatMap entryChunks ++
      [filesClose, execOpen, c, execClose])).flatten = filesRaw entries c := by
    simp [filesRaw, bodyOf, List.flatten_append]
  rw [← hflat]
  apply strFind_none_chunks hh
  · intro ch hch
    rcases List.mem_cons.mp hch with rfl | hch2
    · decide
    rcases List.mem_append.mp hch2 with hch3 | hch4
    · exact entry_chunks_ok hfree ch hch3
    · rcases (by simpa using hch4 :
          ch = filesClose ∨ ch = execOpen ∨ ch = c ∨ ch = execClose) with
        rfl | rfl | rfl | rfl
      · decide
      · decide
      · intro x hx
        exact hc x (List.drop_subset 1 _ hx)
      · decide
  · intro ch hch
    rcases List.mem_cons.mp hch with rfl | hch2
    · exact fun rest _ => clash_refute k0 rest
    rcases List.mem_append.mp hch2 with hch3 | hch4
    · exact entry_chunks_refute hh k1 k2 k3 k4 k5 k6 hfree ch hch3
    · rcases (by simpa using hch4 :
          ch = filesClose ∨ ch = execOpen ∨ ch = c ∨ ch = execClose) with
        rfl | rfl | rfl | rfl
      · exact fun rest _ => clash_refute k7 rest
      · exact fun rest _ => clash_refute k8 rest
      · exact payload_refute hh hc
      · exact fun rest _ => clash_refute k9 rest

/-- A lazy group delimited by `cls\s*nxt` stops right after a `<`-free
payload when the separator follows it immediately. -/
lemma findSep_payload_hit (cls nxt pay X : List Char) (hh : cls.head? = some '<')
    (hn : nxt.head? = some '<') (hpay : ∀ x ∈ pay, x ≠ '<') :
    findSep cls nxt (pay ++ (cls ++ (nxt ++ X))) = some pay.length := by
  have hflat : ([pay] : List (List Char)).flatten ++ (cls ++ (nxt ++ X)) =
      pay ++ (cls ++ (nxt ++ X)) := by simp
  rw [← hflat, findSep_chunks hh [pay] _ ?hok ?href]
  case hok =>
    intro ch hch
    obtain rfl : ch = pay := by simpa using hch
    intro x hx
    exact hpay x (List.drop_subset 1 _ hx)
  case href =>
    intro ch hch
    obtain rfl : ch = pay := by simpa using hch
    exact payload_refute hh hpay
  have h0 : findSep cls nxt (cls ++ (nxt ++ X)) = some 0 :=
    firstIdx_here (sepHere_hit hn (by decide))
  simp [h0]

/-- The per-file regex matches one canonical entry at its front, grouping
exactly the entry's name and code and consuming exactly the entry. -/
lemma matchEntry_canonical (n cd rest : List Char)
    (hn : ∀ x ∈ n, x ≠ '<') (hcd : ∀ x ∈ cd, x ≠ '<') :
    matchFileEntry (entryText (n, cd) ++ rest) = some (n, cd, rest) := by
  have hshape : entryText (n, cd) ++ rest =
      cs "<file>" ++ (cs "<filename>" ++ (n ++ (cs "</filename>" ++ (cs "<code>" ++
        (cd ++ (cs "</code>" ++ (cs "</file>" ++ rest))))))) := by
    simp [entryText, entryChunks]
  have hp1 : ∀ X : List Char, (cs "<file>").isPrefixOf (cs "<file>" ++ X) = true :=
    fun X => isPre_iff.mpr ⟨X, rfl⟩
  have hp2 : ∀ X : List Char, (cs "<filename>").isPrefixOf (cs "<filename>" ++ X) = true :=
    fun X => isPre_iff.mpr ⟨X, rfl⟩
  have hdrop6 : ∀ X : List Char, (cs "<file>" ++ X).drop 6 = X :=
    fun X => List.drop_left' (by decide)
  have hdrop10 : ∀ X : List Char, (cs "<filename>" ++ X).drop 10 = X :=
    fun X => List.drop_left' (by decide)
  have hls1 : ∀ X : List Char, pyLStrip (cs "<filename>" ++ X) = cs "<filename>" ++ X :=
    fun X => pyLStrip_eq_self rfl (by decide)
  have hsep1 : findSep (cs "</filename>") (cs "<code>")
      (n ++ (cs "</filename>" ++ (cs "<code>" ++ (cd ++ (cs "</code>" ++
        (cs "</file>" ++ rest)))))) = some n.length :=
    findSep_payload_hit _ _ _ _ (by decide) (by decide) hn
  have htake1 : ∀ X : List Char, (n ++ X).take n.length = n := fun X => List.take_left n X
  have hdropn : ∀ X : List Char, (n ++ (cs "</filename>" ++ X)).drop (n.length + 11) = X := by
    intro X
    rw [List.drop_append]
    exact List.drop_left' (by decide)
  have hls2 : ∀ X : List Char, pyLStrip (cs "<code>" ++ X) = cs "<code>" ++ X :=
    fun X => pyLStrip_eq_self rfl (by decide)
  have hdrop6b : ∀ X : List Char, (cs "<code>" ++ X).drop 6 = X :=
    fun X => List.drop_left' (by decide)
  have hsep2 : findSep (cs "</code>") (cs "</file>")
      (cd ++ (cs "</code>" ++ (cs "</file>" ++ rest))) = some cd.length :=
    findSep_payload_hit _ _ _ _ (by decide) (by decide) hcd
  have htake2 : ∀ X : List Char, (cd ++ X).take cd.length = cd := fun X => List.take_left cd X
  have hdropc : ∀ X : List Char, (cd ++ (cs "</code>" ++ X)).drop (cd.length + 7) = X := by
    intro X
    rw [List.drop_append]
    exact List.drop_left' (by decide)
  have hls3 : ∀ X : List Char, pyLStrip (cs "</file>" ++ X) = cs "</file>" ++ X :=
    fun X => pyLStrip_eq_self rfl (by decide)
  have hdrop7 : ∀ X : List Char, (cs "</file>" ++ X).drop 7 = X :=
    fun X => List.drop_left' (by decide)
  rw [hshape]
  unfold matchFileEntry
  simp only [hp1, hp2, hdrop6, hdrop10, hls1, hsep1, htake1, hdropn, hls2, hdrop6b,
    hsep2, htake2, hdropc, hls3, hdrop7, if_true]

/-- `finditer` over a canonical block content returns exactly its entries,
in document order, given enough fuel. -/
lemma findEntries_canonical :
    ∀ (entries : List (List Char × List Char)) (fuel : Nat), EntriesFree entries →
      (bodyOf entries).length ≤ fuel → findFileEntriesF fuel (bodyOf entries) = entries := by
  intro entries
  induction entries with
  | nil =>
    intro fuel _ _
    cases fuel with
    | zero => rfl
    | succ f => rfl
  | cons e rest ih =>
    intro fuel hfree hle
    obtain ⟨n, cd⟩ := e
    have hsplit : bodyOf ((n, cd) :: rest) = entryText (n, cd) ++ bodyOf rest := by
      simp [bodyOf, entryText, List.flatMap_cons, List.flatten_append]
    have hlen : (entryText (n, cd)).length = 47 + n.length + cd.length := by
      have l1 : (cs "<file>").length = 6 := rfl
      have l2 : (cs "<filename>").length = 10 := rfl
      have l3 : (cs "</filename>").length = 11 := rfl
      have l4 : (cs "<code>").length = 6 := rfl
      have l5 : (cs "</code>").length = 7 := rfl
      have l6 : (cs "</file>").length = 7 := rfl
      simp [entryText, entryChunks, List.length_append, l1, l2, l3, l4, l5, l6]
      omega
    cases fuel with
    | zero =>
      exfalso
      rw [hsplit, List.length_append, hlen] at hle
      omega
    | succ f =>
      rw [hsplit]
      have hmatch := matchEntry_canonical n cd (bodyOf rest)
        (hfree (n, cd) (by simp)).1 (hfree (n, cd) (by simp)).2
      simp only [findFileEntriesF, hmatch]
      congr 1
      apply ih
      · intro e2 he2
        exact hfree e2 (by simp [he2])
      · rw [hsplit, List.length_append, hlen] at hle
        omega

/-- **C5, confirmed.**  A raw text carrying a well-formed `<files>` block
(one or more entries, names and codes `<`-free) and a trailing well-formed
`<execute>` tag parses to `new_files` holding **every** entry in document
order **and** `command` holding the trailing command — both present in one
parse result. -/
theorem claim5_files_and_command (entries : List (List Char × List Char)) (c : List Char)
    (hne : entries ≠ []) (hfree : EntriesFree entries) (hc : ∀ x ∈ c, x ≠ '<') :
    parseAiResponse (filesRaw entries c) =
      { command := some (pyStrip c)
        new_files := entries.map (fun e => (pyStrip e.1, pyStrip e.2))
        edited_file := none
        dependencies := none
        explanation := none } := by
  have hhead : (filesRaw entries c).head? = some '<' := rfl
  have hlast : (filesRaw entries c).getLast? = some '>' := by
    unfold filesRaw
    rw [List.getLast?_append, List.getLast?_append, List.getLast?_append,
      List.getLast?_append, List.getLast?_append]
    rfl
  have hstrip : pyStrip (filesRaw entries c) = filesRaw entries c :=
    pyStrip_eq_self hhead (by decide) hlast (by decide)
  have hdeps : searchTag depsOpen depsClose (filesRaw entries c) = none :=
    searchTag_none_of (filesRaw_refute (by decide) (by decide) (by decide) (by decide)
      (by decide) (by decide) (by decide) (by decide) (by decide) (by decide) (by decide)
      hfree hc)
  have hopen : strFind filesOpen (filesRaw entries c) = some 0 := by
    unfold filesRaw
    exact strFind_at_start
  have hdropOpen : (filesRaw entries c).drop (0 + filesOpen.length) =
      bodyOf entries ++ (filesClose ++ (execOpen ++ (c ++ execClose))) := by
    unfold filesRaw
    exact List.drop_left' (by decide)
  have hcloseFind : strFind filesClose
      (bodyOf entries ++ (filesClose ++ (execOpen ++ (c ++ execClose)))) =
      some (bodyOf entries).length := by
    rw [show bodyOf entries = (entries.flatMap entryChunks).flatten from rfl,
      strFind_chunks (by decide) (entries.flatMap entryChunks) _
        (entry_chunks_ok hfree)
        (entry_chunks_refute (by decide) (by decide) (by decide) (by decide) (by decide)
          (by decide) (by decide) hfree),
      strFind_at_start]
    simp
  have htake : (bodyOf entries ++ (filesClose ++ (execOpen ++ (c ++ execClose)))).take
      (bodyOf entries).length = bodyOf entries := List.take_left _ _
  have hrem : removeSpan (filesRaw entries c) 0
      (0 + filesOpen.length + (bodyOf entries).length + filesClose.length) =
      execOpen ++ (c ++ execClose) := by
    unfold removeSpan filesRaw
    have harith : 0 + filesOpen.length + (bodyOf entries).length + filesClose.length =
        filesOpen.length + ((bodyOf entries).length + (filesClose.length + 0)) := by
      omega
    rw [harith, List.drop_append, List.drop_append, List.drop_append, List.drop_zero]
    simpa using pyStrip_execPart c
  have hfilesStep : filesStep (filesRaw entries c) =
      (entries.map (fun e => (pyStrip e.1, pyStrip e.2)), execOpen ++ (c ++ execClose)) := by
    unfold filesStep searchTag
    simp only [hopen, hdropOpen, hcloseFind, htake, hrem]
    rw [show findFileEntries (bodyOf entries) = entries from
      findEntries_canonical entries _ hfree le_rfl]
  have hedited : searchTag2 editedOpen editedMid editedClose
      (execOpen ++ (c ++ execClose)) = none :=
    searchTag2_none_of (chunks3_refute (by decide) (by decide) (by decide) hc)
  have hmapne : (entries.map (fun e => (pyStrip e.1, pyStrip e.2))).isEmpty = false := by
    cases entries with
    | nil => exact absurd rfl hne
    | cons a t => rfl
  simp [parseAiResponse, hstrip, depsStep, hdeps, parseFrom, hfilesStep, editedStep,
    hedited, hmapne, execStep_only c hc]

/-- **C5, witness** at a concrete two-entry block with a trailing run
command. -/
theorem claim5_witness :
    parseAiResponse (filesRaw [(cs "index.html", cs "hello page"), (cs "server.py", cs "import os")]
        (cs "python server.py")) =
      { command := some (pyStrip (cs "python server.py"))
        new_files := [(cs "index.html", cs "hello page"), (cs "server.py", cs "import os")].map
          (fun e => (pyStrip e.1, pyStrip e.2))
        edited_file := none
        dependencies := none
        explanation := none } :=
  claim5_files_and_command _ _ (by decide) (by unfold EntriesFree; decide) (by decide)

/-! ## Claim C3 — debug-loop termination with an always-failing fix -/

/-- The mock of the claim: the AI always returns the same fix command
(`<execute>fix</execute>`), executing any command fails (exit 1, stderr
`"boom"`), and every user confirmation is answered `y`. -/
def envC3 : Env :=
  { safeMode := true
    shell := fun _ => (1, [], cs "boom")
    aiOk := true
    aiResponse := cs "<execute>fix</execute>"
    answer := fun _ => cs "y" }

/-- The same mock, but the AI answers with an explanation carrying no
actionable command. -/
def envC3x : Env :=
  { envC3 with aiResponse := cs "try reinstalling" }

/-- **C3, counterexample.**  Under the claim's mock the debug loop does
not terminate in the exhausted state after 2 AI round-trips: each accepted
fix command re-enters `_execute_command`, whose failure prompt re-enters
`_debug_command_error`, one AI round-trip per recursion level.  Within
recursion depth 10 the run is still recursing (`none`) and has already
made 5 round-trips; depth 12 yields 6 — not 2. -/
theorem claim3_counterexample :
    (debugCommandError envC3 10 (cs "badcmd") (cs "boom")).1 = none ∧
    countAi (debugCommandError envC3 10 (cs "badcmd") (cs "boom")).2 = 5 ∧
    countAi (debugCommandError envC3 12 (cs "badcmd") (cs "boom")).2 = 6 := by
  decide

/-- **C3, amended.**  With the always-same-failing-fix mock and every
confirmation answered yes, the loop never reaches a terminal state: at
recursion depth `2·f` it performs exactly `f` AI round-trips, one per
recursion level, and is still recursing (`maxAttempts = 2` never limits
this path, because the source returns directly after executing a suggested
command and the re-entry arrives through `_execute_command`'s own prompt).
The exhausted terminal after exactly `maxAttempts = 2` round-trips occurs
instead when the AI response carries no command and the user keeps
retrying. -/
theorem claim3_amended :
    (∀ (f : Nat) (c e : List Char),
      (debugCommandError envC3 (2 * f) c e).1 = none ∧
      countAi (debugCommandError envC3 (2 * f) c e).2 = f) ∧
    (∀ (f : Nat) (c e : List Char),
      debugCommandError envC3x (f + 1) c e =
        (some (couldNotDebugMsg, false), [Ev.ai, Ev.ai])) := by
  constructor
  · intro f
    induction f with
    | zero => intro c e; exact ⟨rfl, rfl⟩
    | succ f ih =>
      intro c e
      have h2 : 2 * (f + 1) = 2 * f + 1 + 1 := by ring
      have hstep : engine envC3 (2 * f + 1 + 1) (Call.debug c e) =
          ((engine envC3 (2 * f + 1) (Call.exec (cs "fix"))).1,
           Ev.ai :: (engine envC3 (2 * f + 1) (Call.exec (cs "fix"))).2) := rfl
      have hexec : engine envC3 (2 * f + 1) (Call.exec (cs "fix")) =
          ((engine envC3 (2 * f) (Call.debug (cs "fix") (pyStrip (cs "boom")))).1,
           Ev.spawn (cs "fix") ::
             (engine envC3 (2 * f) (Call.debug (cs "fix") (pyStrip (cs "boom")))).2) := rfl
      have ihx := ih (cs "fix") (pyStrip (cs "boom"))
      unfold debugCommandError at ihx ⊢
      rw [h2, hstep, hexec]
      refine ⟨ihx.1, ?_⟩
      have h3 := ihx.2
      simp only [countAi] at h3 ⊢
      simp [isAiEv, List.filter_cons, h3]
  · intro f c e
    rfl

/-! ## Claim C10 — the Windows blocklist entry is unreachable -/

/-- An environment with safe mode on whose shell succeeds silently. -/
def envC10 : Env :=
  { safeMode := true
    shell := fun _ => (0, [], [])
    aiOk := true
    aiResponse := []
    answer := fun _ => [] }

/-- **C10, confirmed.**  The executor lower-cases the candidate command but
compares it against the blocklist entries verbatim; the entry
`del /f /s /q C:\` contains an uppercase `C`, and no lower-cased command
ever contains an uppercase letter, so no command whatsoever is blocked via
this entry — and the literal command `del /f /s /q C:\` itself is spawned
even with safe mode enabled. -/
theorem claim10_unreachable_entry :
    (∀ cmd : List Char, containsSub (cs "del /f /s /q C:\\") (pyLower cmd) = false) ∧
    execCmd envC10 1 (cs "del /f /s /q C:\\") =
      (some (okSentinel, true), [Ev.spawn (cs "del /f /s /q C:\\")]) := by
  constructor
  · intro cmd
    have hC : 'C' ∈ cs "del /f /s /q C:\\" := by decide
    have hnot : 'C' ∉ pyLower cmd := by
      intro hmem
      obtain ⟨y, _, hy⟩ := List.mem_map.mp hmem
      exact lowerChar_ne_upper y (by decide) (by decide) hy
    rw [containsSub, strFind_eq_none_of_missing hC hnot]
    rfl
  · decide

end BashAI
